import Mathlib

/-!
Verification of the native helper routines in `src/spiral_rcpp.cpp`:
Fermat-spiral point generation (`generate_spiral_cpp`), symmetric plot-limit
calculation (`calculate_limits_cpp`) and bounded-cell counting
(`count_bounded_cells_cpp`).

The C++ code computes with IEEE doubles.  We embed doubles as the type
`F α`: either a finite value drawn from a linear ordered field `α`, or one
of the special values `+Inf`, `-Inf`, `NaN`.  Arithmetic on finite values is
the field arithmetic (idealised, i.e. without rounding), and the special
values follow the IEEE-754 rules the source relies on: any operation on NaN
yields NaN, every ordered comparison against NaN is false, `0 * Inf = NaN`,
`x / 0` is `±Inf` for `x ≠ 0` and `NaN` for `x = 0`, and the square root of
a negative number is NaN.  The transcendental functions `sqrt`, `cos`,
`sin` on finite arguments are abstract (bundled in `Ops α`), since no claim
depends on their values, only on how the code composes them.
-/

/-- An IEEE-style floating-point value over a field `α`: a finite value,
positive infinity, negative infinity, or NaN. -/
inductive F (α : Type) where
  | fin (x : α)
  | inf
  | ninf
  | nan
deriving DecidableEq, Repr

/-- The unary real functions used by `generate_spiral_cpp` (`std::sqrt`,
`std::cos`, `std::sin`) on finite arguments, kept abstract. -/
structure Ops (α : Type) where
  sqrt : α → α
  cos : α → α
  sin : α → α

namespace F

variable {α : Type} [LinearOrderedField α]

/-- IEEE negation. -/
def neg : F α → F α
  | fin x => fin (-x)
  | inf => ninf
  | ninf => inf
  | nan => nan

/-- IEEE addition: NaN absorbs, `Inf + (-Inf) = NaN`. -/
def add : F α → F α → F α
  | fin x, fin y => fin (x + y)
  | fin _, inf => inf
  | fin _, ninf => ninf
  | inf, fin _ => inf
  | inf, inf => inf
  | inf, ninf => nan
  | ninf, fin _ => ninf
  | ninf, inf => nan
  | ninf, ninf => ninf
  | _, _ => nan

/-- IEEE subtraction, `a - b = a + (-b)`. -/
def sub (a b : F α) : F α := add a (neg b)

/-- IEEE multiplication: NaN absorbs, `0 * (±Inf) = NaN`, signs multiply. -/
def mul : F α → F α → F α
  | fin x, fin y => fin (x * y)
  | fin x, inf => if 0 < x then inf else if x < 0 then ninf else nan
  | fin x, ninf => if 0 < x then ninf else if x < 0 then inf else nan
  | inf, fin y => if 0 < y then inf else if y < 0 then ninf else nan
  | inf, inf => inf
  | inf, ninf => ninf
  | ninf, fin y => if 0 < y then ninf else if y < 0 then inf else nan
  | ninf, inf => ninf
  | ninf, ninf => inf
  | _, _ => nan

/-- IEEE division: `x / 0` is `±Inf` for finite `x ≠ 0` and NaN for
`x = 0`; a finite value over an infinity is `0`; `Inf / Inf = NaN`;
NaN absorbs. -/
def div : F α → F α → F α
  | fin x, fin y =>
      if y = 0 then (if 0 < x then inf else if x < 0 then ninf else nan)
      else fin (x / y)
  | fin _, inf => fin 0
  | fin _, ninf => fin 0
  | inf, fin y => if 0 ≤ y then inf else ninf
  | ninf, fin y => if 0 ≤ y then ninf else inf
  | _, _ => nan

/-- IEEE strict greater-than: every comparison involving NaN is false. -/
def gt : F α → F α → Bool
  | fin x, fin y => decide (y < x)
  | fin _, ninf => true
  | inf, fin _ => true
  | inf, ninf => true
  | _, _ => false

/-- `std::abs` on doubles. -/
def abs : F α → F α
  | fin x => fin |x|
  | inf => inf
  | ninf => inf
  | nan => nan

/-- `std::sqrt` on doubles: NaN on negative finite arguments and on NaN
and `-Inf`. -/
def sqrt (ops : Ops α) : F α → F α
  | fin x => if x < 0 then nan else fin (ops.sqrt x)
  | inf => inf
  | _ => nan

/-- `std::cos` on doubles: NaN on infinities and NaN. -/
def cos (ops : Ops α) : F α → F α
  | fin x => fin (ops.cos x)
  | _ => nan

/-- `std::sin` on doubles: NaN on infinities and NaN. -/
def sin (ops : Ops α) : F α → F α
  | fin x => fin (ops.sin x)
  | _ => nan

/-- `std::ceil` on doubles (exact on the idealised finite values). -/
def ceil [FloorRing α] : F α → F α
  | fin x => fin ((⌈x⌉ : ℤ) : α)
  | inf => inf
  | ninf => ninf
  | nan => nan

/-- The IEEE comparison `0 ≤ v` (false on NaN and `-Inf`). -/
def nonneg : F α → Bool
  | fin x => decide (0 ≤ x)
  | inf => true
  | _ => false

/-- Whether the value is NaN. -/
def isNan : F α → Bool
  | nan => true
  | _ => false

end F

/-- The `max_abs` update of `calculate_limits_cpp`:
`if (v > m) m = v;` for one candidate value `v`. -/
def F.takeMax {α : Type} [LinearOrderedField α] (m v : F α) : F α :=
  if F.gt v m then v else m

/-- An `Rcpp::NumericMatrix` with two columns, as produced by
`generate_spiral_cpp`: the list of rows plus the column names attached by
`colnames(points) = CharacterVector::create("x", "y")`. -/
structure NumericMatrix2 (α : Type) where
  rows : List (F α × F α)
  colNames : String × String
deriving DecidableEq, Repr

section Source

variable {α : Type} [LinearOrderedField α] [FloorRing α]

/-- Embedding of `generate_spiral_cpp(double angle_start, double angle_end,
int num_points)`: `step = (angle_end - angle_start) / (num_points - 1)`;
row `i` (for `0 ≤ i < num_points`) is
`(sqrt(theta)*cos(theta), sqrt(theta)*sin(theta))` with
`theta = angle_start + i*step`; column names are `"x"`, `"y"`. -/
def generate_spiral_cpp (ops : Ops α) (angle_start angle_end : F α)
    (num_points : ℤ) : NumericMatrix2 α :=
  let step := F.div (F.sub angle_end angle_start)
    (F.fin ((num_points - 1 : ℤ) : α))
  { rows := (List.range num_points.toNat).map (fun (i : ℕ) =>
      let theta := F.add angle_start (F.mul (F.fin (i : α)) step)
      let sqrt_theta := F.sqrt ops theta
      (F.mul sqrt_theta (F.cos ops theta), F.mul sqrt_theta (F.sin ops theta)))
    colNames := ("x", "y") }

/-- Embedding of `calculate_limits_cpp(NumericMatrix vertices, double
padding)`: `(-10.0, 10.0)` on an empty matrix, otherwise the running
maximum `max_abs` of `|x|` and `|y|` over all rows starting from `0.0`,
then `limit = ceil(max_abs * padding)` and result `(-limit, limit)`. -/
def calculate_limits_cpp (vertices : List (F α × F α)) (padding : F α) :
    F α × F α :=
  if vertices.length = 0 then (F.fin (-10), F.fin 10)
  else
    let max_abs := vertices.foldl
      (fun m p => F.takeMax (F.takeMax m (F.abs p.1)) (F.abs p.2)) (F.fin 0)
    let limit := F.ceil (F.mul max_abs padding)
    (F.neg limit, limit)

/-- Embedding of `count_bounded_cells_cpp(LogicalVector has_infinite)`:
count the entries that are `false`. -/
def count_bounded_cells_cpp (has_infinite : List Bool) : ℤ :=
  has_infinite.foldl (fun count b => if !b then count + 1 else count) 0

end Source

section SpecSide

variable {α : Type} [LinearOrderedField α]

/-- Spec-side definition ("the single maximum of the absolute values of
both the x and y coordinates over all points"): the absolute values of all
coordinates of a point list, in row order. -/
def absValues (l : List (α × α)) : List α :=
  l.bind (fun q => [|q.1|, |q.2|])

/-- Spec-side definition: the maximum of the absolute values of all
coordinates of a point list (`0` for the empty list, which the claims never
use). -/
def maxAbsValue (l : List (α × α)) : α :=
  match absValues l with
  | [] => 0
  | a :: rest => rest.foldl max a

/-- Replace a NaN value by `0`, leaving every other value unchanged.  Used
to state that `calculate_limits_cpp` ignores NaN coordinates. -/
def sanitizeNan : F α → F α
  | F.nan => F.fin 0
  | v => v

end SpecSide

/-- A concrete computable instantiation of the abstract unary functions,
used to evaluate the embedding at `α = ℚ` in the witnesses. -/
def qOps : Ops ℚ := ⟨fun _ => 0, fun _ => 0, fun _ => 0⟩

/-! ## Helper lemmas -/

section Helpers

variable {α : Type} [LinearOrderedField α]

theorem count_foldl (l : List Bool) (c : ℤ) :
    l.foldl (fun count b => if !b then count + 1 else count) c
      = c + (l.count false : ℤ) := by
  induction l generalizing c with
  | nil => simp
  | cons b t ih =>
      rw [List.foldl_cons, ih]
      cases b <;> simp [List.count_cons] <;> push_cast <;> ring

theorem mul_zero_div_zero (x : α) :
    F.mul (F.fin 0) (F.div (F.fin x) (F.fin 0)) = F.nan := by
  rcases lt_trichotomy x 0 with h | h | h
  · simp [F.div, F.mul, h, asymm h]
  · simp [F.div, F.mul, h]
  · simp [F.div, F.mul, h, asymm h]

theorem takeMax_fin (r s : α) :
    F.takeMax (F.fin r) (F.fin s) = F.fin (max r s) := by
  unfold F.takeMax
  simp only [F.gt, decide_eq_true_eq]
  split_ifs with h
  · rw [max_eq_right h.le]
  · rw [max_eq_left (not_lt.mp h)]

theorem takeMax_swap (m u v : F α) :
    F.takeMax (F.takeMax m u) v = F.takeMax (F.takeMax m v) u := by
  rcases m with x | _ | _ | _ <;> rcases u with y | _ | _ | _ <;>
    rcases v with z | _ | _ | _ <;>
      simp [F.takeMax, F.gt] <;> split_ifs <;> simp_all [F.gt] <;>
        first | rfl | linarith | (congr 1; linarith)

theorem takeMax_same (m u : F α) :
    F.takeMax (F.takeMax m u) u = F.takeMax m u := by
  unfold F.takeMax
  split_ifs <;> first | rfl | (exfalso; simp_all)

theorem takeMax_nan (m : F α) : F.takeMax m F.nan = m := by
  cases m <;> rfl

theorem rowStep_swap (m : F α) (p q : F α × F α) :
    F.takeMax (F.takeMax (F.takeMax (F.takeMax m (F.abs p.1)) (F.abs p.2))
        (F.abs q.1)) (F.abs q.2) =
    F.takeMax (F.takeMax (F.takeMax (F.takeMax m (F.abs q.1)) (F.abs q.2))
        (F.abs p.1)) (F.abs p.2) := by
  rw [takeMax_swap (F.takeMax m (F.abs p.1)) (F.abs p.2) (F.abs q.1),
    takeMax_swap m (F.abs p.1) (F.abs q.1),
    takeMax_swap (F.takeMax (F.takeMax m (F.abs q.1)) (F.abs p.1))
      (F.abs p.2) (F.abs q.2),
    takeMax_swap (F.takeMax m (F.abs q.1)) (F.abs p.1) (F.abs q.2)]

theorem rowStep_same (m : F α) (p : F α × F α) :
    F.takeMax (F.takeMax (F.takeMax (F.takeMax m (F.abs p.1)) (F.abs p.2))
        (F.abs p.1)) (F.abs p.2) =
    F.takeMax (F.takeMax m (F.abs p.1)) (F.abs p.2) := by
  rw [takeMax_swap (F.takeMax m (F.abs p.1)) (F.abs p.2) (F.abs p.1),
    takeMax_same m (F.abs p.1), takeMax_same (F.takeMax m (F.abs p.1)) (F.abs p.2)]

theorem foldl_rowMax_fin (l : List (α × α)) (r : α) :
    (l.map (fun q => (F.fin q.1, F.fin q.2))).foldl
      (fun m p => F.takeMax (F.takeMax m (F.abs p.1)) (F.abs p.2)) (F.fin r)
    = F.fin (l.foldl (fun m q => max (max m |q.1|) |q.2|) r) := by
  induction l generalizing r with
  | nil => rfl
  | cons q t ih =>
      simp only [List.map_cons, List.foldl_cons]
      rw [show F.abs (F.fin q.1) = F.fin |q.1| from rfl,
        show F.abs (F.fin q.2) = F.fin |q.2| from rfl,
        takeMax_fin, takeMax_fin, ih]

theorem foldl_rowmax_eq_absValues (l : List (α × α)) (r : α) :
    l.foldl (fun m q => max (max m |q.1|) |q.2|) r
      = (absValues l).foldl max r := by
  induction l generalizing r with
  | nil => rfl
  | cons q t ih => simp [absValues, List.foldl_cons, ih]

theorem absValues_nonneg (l : List (α × α)) :
    ∀ x ∈ absValues l, 0 ≤ x := by
  intro x hx
  simp only [absValues, List.mem_bind, List.mem_cons, List.mem_singleton,
    List.not_mem_nil, or_false] at hx
  obtain ⟨q, _, hq⟩ := hx
  rcases hq with h | h <;> exact h ▸ abs_nonneg _

theorem maxAbsValue_eq_foldl (l : List (α × α)) :
    maxAbsValue l = (absValues l).foldl max 0 := by
  unfold maxAbsValue
  rcases h : absValues l with _ | ⟨a, rest⟩
  · rfl
  · have ha : 0 ≤ a := absValues_nonneg l a (by rw [h]; exact List.mem_cons_self a rest)
    rw [List.foldl_cons, max_eq_right ha]

theorem le_foldl_rowmax (l : List (α × α)) (r : α) :
    r ≤ l.foldl (fun m q => max (max m |q.1|) |q.2|) r := by
  induction l generalizing r with
  | nil => exact le_refl r
  | cons q t ih =>
      refine le_trans ?_ (ih (max (max r |q.1|) |q.2|))
      exact le_trans (le_max_left r |q.1|) (le_max_left _ |q.2|)

theorem gt_zero_takeMax (m c : F α) (h : F.gt (F.fin 0) m = false) :
    F.gt (F.fin 0) (F.takeMax m (F.abs c)) = false := by
  unfold F.takeMax
  split_ifs with hc
  · rcases c with x | _ | _ | _
    · simp [F.abs, F.gt, not_lt.mpr (abs_nonneg x)]
    · rfl
    · rfl
    · rw [show F.abs (F.nan : F α) = F.nan from rfl] at hc
      rw [show F.gt (F.nan : F α) m = false by cases m <;> rfl] at hc
      cases hc
  · exact h

theorem takeMax_sanitize (m c : F α) (h : F.gt (F.fin 0) m = false) :
    F.takeMax m (F.abs (sanitizeNan c)) = F.takeMax m (F.abs c) := by
  rcases c with x | _ | _ | _
  · rfl
  · rfl
  · rfl
  · rw [show sanitizeNan (F.nan : F α) = F.fin 0 from rfl,
      show F.abs (F.nan : F α) = F.nan from rfl, takeMax_nan,
      show F.abs (F.fin (0:α)) = F.fin |(0:α)| from rfl, abs_zero]
    unfold F.takeMax
    rw [h, if_neg (by simp)]

theorem foldl_sanitize (v : List (F α × F α)) (m : F α)
    (h : F.gt (F.fin 0) m = false) :
    (v.map (fun q => (sanitizeNan q.1, sanitizeNan q.2))).foldl
      (fun m2 p => F.takeMax (F.takeMax m2 (F.abs p.1)) (F.abs p.2)) m
    = v.foldl
      (fun m2 p => F.takeMax (F.takeMax m2 (F.abs p.1)) (F.abs p.2)) m := by
  induction v generalizing m with
  | nil => rfl
  | cons q t ih =>
      simp only [List.map_cons, List.foldl_cons]
      rw [takeMax_sanitize m q.1 h,
        takeMax_sanitize (F.takeMax m (F.abs q.1)) q.2 (gt_zero_takeMax m q.1 h)]
      exact ih _ (gt_zero_takeMax _ q.2 (gt_zero_takeMax m q.1 h))

end Helpers

/-! ## Claim theorems -/

section Claims

variable {α : Type} [LinearOrderedField α] [FloorRing α]

/-- Claim C1: for finite `angle_start` and `angle_end` and `num_points ≥ 2`,
`generate_spiral_cpp` computes `step = (angle_end - angle_start) /
(num_points - 1)` and row `i` (for `0 ≤ i < num_points`) equals
`(sqrt(theta)*cos(theta), sqrt(theta)*sin(theta))` with
`theta = angle_start + i*step`; when `theta` is negative both coordinates
of the row are NaN. -/
theorem generate_spiral_row_formula (ops : Ops α) (a b : α) (n : ℤ) (i : ℕ)
    (step theta : α) (hn : 2 ≤ n) (hi : (i : ℤ) < n)
    (hstep : step = (b - a) / ((n - 1 : ℤ) : α))
    (htheta : theta = a + (i : α) * step) :
    (generate_spiral_cpp ops (F.fin a) (F.fin b) n).rows[i]? =
      some (if theta < 0 then (F.nan, F.nan)
        else (F.fin (ops.sqrt theta * ops.cos theta),
              F.fin (ops.sqrt theta * ops.sin theta))) := by
  have hne : ((n - 1 : ℤ) : α) ≠ 0 := by
    rw [Int.cast_ne_zero]; omega
  have hdiv : F.div (F.sub (F.fin b) (F.fin a)) (F.fin ((n - 1 : ℤ) : α))
      = F.fin step := by
    have hs : F.sub (F.fin b) (F.fin a) = F.fin (b - a) := by
      show F.fin (b + -a) = F.fin (b - a)
      rw [sub_eq_add_neg]
    rw [hs]
    simp only [F.div, if_neg hne]
    rw [hstep]
  have hilt : i < n.toNat := by omega
  have hlen : i < ((List.range n.toNat).map (fun (j : ℕ) =>
      let theta2 := F.add (F.fin a) (F.mul (F.fin (j : α)) (F.fin step))
      let sqrt_theta := F.sqrt ops theta2
      (F.mul sqrt_theta (F.cos ops theta2),
       F.mul sqrt_theta (F.sin ops theta2)))).length := by
    simpa using hilt
  simp only [generate_spiral_cpp, hdiv]
  rw [List.getElem?_eq_getElem hlen]
  simp only [List.getElem_map, List.getElem_range]
  have hth : F.add (F.fin a) (F.mul (F.fin (i : α)) (F.fin step))
      = F.fin theta := by
    simp [F.add, F.mul, htheta]
  rw [hth]
  by_cases h : theta < 0
  · simp [F.sqrt, h, F.cos, F.sin, F.mul]
  · simp [F.sqrt, h, F.cos, F.sin, F.mul]

/-- Witness for C1: `generate_spiral_cpp` over `ℚ` at
`angle_start = 0`, `angle_end = 1`, `num_points = 2`, row `1`,
where `step = 1` and `theta = 1`. -/
theorem generate_spiral_row_formula_witness :
    (generate_spiral_cpp qOps (F.fin (0:ℚ)) (F.fin 1) 2).rows[1]? =
      some (if (1:ℚ) < 0 then (F.nan, F.nan)
        else (F.fin (qOps.sqrt 1 * qOps.cos 1), F.fin (qOps.sqrt 1 * qOps.sin 1))) :=
  generate_spiral_row_formula qOps 0 1 2 1 1 1 (by norm_num) (by norm_num)
    (by norm_num) (by norm_num)

/-- Claim C2: on a non-empty point list with finite coordinates and finite
padding, `calculate_limits_cpp` returns `(-bound, bound)` with
`bound = ceil(maxAbsValue * padding)`, where `maxAbsValue` is the single
maximum of the absolute values of both coordinates over all points. -/
theorem calculate_limits_max_formula (l : List (α × α)) (p : α) (hl : l ≠ []) :
    calculate_limits_cpp (l.map (fun q => (F.fin q.1, F.fin q.2))) (F.fin p) =
      (F.fin (-((⌈maxAbsValue l * p⌉ : ℤ) : α)),
       F.fin ((⌈maxAbsValue l * p⌉ : ℤ) : α)) := by
  have hlen : (l.map (fun q => (F.fin q.1, F.fin q.2))).length ≠ 0 := by
    simpa using fun h => hl (List.length_eq_zero.mp h)
  simp only [calculate_limits_cpp, if_neg hlen]
  rw [foldl_rowMax_fin l 0, foldl_rowmax_eq_absValues l 0, ← maxAbsValue_eq_foldl]
  rfl

/-- Witness for C2: the spec's own example
`calculateLimits([(3,4),(-5,1)], padding=1.0)`; the bound is
`ceil(5 * 1) = 5`. -/
theorem calculate_limits_max_formula_witness :
    calculate_limits_cpp
        ([((3:ℚ),4),(-5,1)].map (fun q => (F.fin q.1, F.fin q.2))) (F.fin 1) =
      (F.fin (-((⌈maxAbsValue [((3:ℚ),4),(-5,1)] * 1⌉ : ℤ) : ℚ)),
       F.fin ((⌈maxAbsValue [((3:ℚ),4),(-5,1)] * 1⌉ : ℤ) : ℚ)) :=
  calculate_limits_max_formula [((3:ℚ),4),(-5,1)] 1 (List.cons_ne_nil _ _)

/-- Claim C3: on the empty point list `calculate_limits_cpp` returns the
fixed default `(-10.0, 10.0)` for every padding. -/
theorem calculate_limits_empty_default (padding : F α) :
    calculate_limits_cpp [] padding = (F.fin (-10), F.fin 10) := rfl

/-- Claim C4: `count_bounded_cells_cpp` returns the number of entries equal
to `false`; the empty list yields `0`. -/
theorem count_bounded_cells_counts_false :
    (∀ l : List Bool, count_bounded_cells_cpp l = (l.count false : ℤ))
    ∧ count_bounded_cells_cpp [] = 0 := by
  constructor
  · intro l
    have := count_foldl l 0
    rw [count_bounded_cells_cpp, this, zero_add]
  · rfl

/-- Counterexample to claim C5 as stated: with point `(1,1)` and padding
`-2`, the upper bound is `ceil(1 * -2) = -2`, which is negative, so
`upperBound ≥ 0` fails for some paddings. -/
theorem calculate_limits_nonneg_counterexample :
    F.nonneg ((calculate_limits_cpp [((F.fin (1:ℚ)), F.fin 1)] (F.fin (-2))).2)
      = false := by
  norm_num [calculate_limits_cpp, F.abs, F.takeMax, F.gt, F.mul, F.ceil,
    F.nonneg]
  rw [show ((-2:ℚ)) = ((-2:ℤ):ℚ) by norm_num, Int.ceil_intCast]
  norm_num

/-- Claim C5 (amended): for every input and padding the result satisfies
`lowerBound = -upperBound`; and `upperBound ≥ 0` holds when the coordinates
are finite and the padding is finite and non-negative. -/
theorem calculate_limits_symmetric_bounds :
    (∀ (v : List (F α × F α)) (pad : F α),
        (calculate_limits_cpp v pad).1 = F.neg (calculate_limits_cpp v pad).2) ∧
    (∀ (l : List (α × α)) (p : α), 0 ≤ p →
        F.nonneg (calculate_limits_cpp
          (l.map (fun q => (F.fin q.1, F.fin q.2))) (F.fin p)).2 = true) := by
  constructor
  · intro v pad
    by_cases h : v.length = 0
    · simp only [calculate_limits_cpp, if_pos h]
      show F.fin (-10) = F.neg (F.fin 10)
      rw [show F.neg (F.fin (10:α)) = F.fin (-10) from rfl]
    · simp only [calculate_limits_cpp, if_neg h]
  · intro l p hp
    rcases l with _ | ⟨q, t⟩
    · simp [calculate_limits_cpp, F.nonneg]
    · have hlen : (((q :: t).map (fun r => (F.fin r.1, F.fin r.2))).length) ≠ 0 := by
        simp
      simp only [calculate_limits_cpp, if_neg hlen]
      rw [foldl_rowMax_fin (q :: t) 0]
      have h0 : (0:α) ≤ (q :: t).foldl (fun m r => max (max m |r.1|) |r.2|) 0 :=
        le_foldl_rowmax (q :: t) 0
      show F.nonneg (F.ceil (F.mul (F.fin _) (F.fin p))) = true
      rw [show F.mul (F.fin ((q :: t).foldl (fun m r => max (max m |r.1|) |r.2|) 0))
            (F.fin p) = F.fin ((q :: t).foldl (fun m r => max (max m |r.1|) |r.2|) 0 * p)
          from rfl]
      show F.nonneg (F.fin ((⌈_⌉ : ℤ) : α)) = true
      simp only [F.nonneg, decide_eq_true_eq]
      exact Int.cast_nonneg.mpr (Int.ceil_nonneg (mul_nonneg h0 hp))

/-- Witness for C5 (amended): at the point `(2,3)` with padding `1` the
bounds are symmetric and the upper bound is non-negative. -/
theorem calculate_limits_symmetric_bounds_witness :
    ((calculate_limits_cpp [((F.fin (2:ℚ)), F.fin 3)] (F.fin 1)).1
        = F.neg (calculate_limits_cpp [((F.fin (2:ℚ)), F.fin 3)] (F.fin 1)).2) ∧
    F.nonneg (calculate_limits_cpp
        ([((2:ℚ),3)].map (fun q => (F.fin q.1, F.fin q.2))) (F.fin 1)).2 = true :=
  ⟨calculate_limits_symmetric_bounds.1 [(F.fin 2, F.fin 3)] (F.fin 1),
   calculate_limits_symmetric_bounds.2 [((2:ℚ),3)] 1 (by norm_num)⟩

/-- Counterexample to claim C6 as stated: the input `[(NaN, 1)]` contains a
NaN coordinate, yet neither component of the result is NaN (the result is
`(-1, 1)`): NaN does not propagate into the result. -/
theorem calculate_limits_nan_counterexample :
    F.isNan (calculate_limits_cpp [((F.nan : F ℚ), F.fin 1)] (F.fin 1)).1 = false ∧
    F.isNan (calculate_limits_cpp [((F.nan : F ℚ), F.fin 1)] (F.fin 1)).2 = false := by
  decide

/-- Claim C6 (amended): `calculate_limits_cpp` is total (no failure path),
and NaN coordinates in the input are ignored rather than propagated:
every comparison against NaN is false, so replacing each NaN coordinate by
`0` leaves the result unchanged. -/
theorem calculate_limits_nan_ignored (v : List (F α × F α)) (pad : F α) :
    calculate_limits_cpp (v.map (fun q => (sanitizeNan q.1, sanitizeNan q.2))) pad
      = calculate_limits_cpp v pad := by
  by_cases h : v.length = 0
  · have h2 : (v.map (fun q => (sanitizeNan q.1, sanitizeNan q.2))).length = 0 := by
      simpa using h
    simp only [calculate_limits_cpp, if_pos h, if_pos h2]
  · have h2 : ¬(v.map (fun q => (sanitizeNan q.1, sanitizeNan q.2))).length = 0 := by
      simpa using h
    simp only [calculate_limits_cpp, if_neg h, if_neg h2]
    rw [foldl_sanitize v (F.fin 0) (by simp [F.gt])]

/-- Claim C7: for `num_points ≥ 2`, `generate_spiral_cpp` returns exactly
`num_points` rows (each row a 2-D point by construction) with column names
`"x"` and `"y"`. -/
theorem generate_spiral_row_count (ops : Ops α) (a b : F α) (n : ℤ)
    (hn : 2 ≤ n) :
    ((generate_spiral_cpp ops a b n).rows.length : ℤ) = n ∧
    (generate_spiral_cpp ops a b n).colNames = ("x", "y") := by
  refine ⟨?_, rfl⟩
  simp only [generate_spiral_cpp, List.length_map, List.length_range]
  omega

/-- Witness for C7: two points requested over `ℚ` give two rows and the
column names `"x"`, `"y"`. -/
theorem generate_spiral_row_count_witness :
    (((generate_spiral_cpp qOps (F.fin (0:ℚ)) (F.fin 1) 2).rows.length : ℤ) = 2) ∧
    (generate_spiral_cpp qOps (F.fin (0:ℚ)) (F.fin 1) 2).colNames = ("x", "y") :=
  generate_spiral_row_count qOps (F.fin 0) (F.fin 1) 2 (by norm_num)

/-- Claim C8: `calculate_limits_cpp` is order-independent (permuting the
rows leaves the result unchanged) and duplicate rows do not affect the
result. -/
theorem calculate_limits_order_independent :
    (∀ (v w : List (F α × F α)) (pad : F α), v.Perm w →
        calculate_limits_cpp v pad = calculate_limits_cpp w pad) ∧
    (∀ (q : F α × F α) (v : List (F α × F α)) (pad : F α),
        calculate_limits_cpp (q :: q :: v) pad
          = calculate_limits_cpp (q :: v) pad) := by
  constructor
  · intro v w pad hp
    by_cases h : v.length = 0
    · have hw : w.length = 0 := by rw [← hp.length_eq]; exact h
      simp only [calculate_limits_cpp, if_pos h, if_pos hw]
    · have hw : ¬w.length = 0 := by rw [← hp.length_eq]; exact h
      simp only [calculate_limits_cpp, if_neg h, if_neg hw]
      rw [hp.foldl_eq' (fun x _ y _ z => rowStep_swap z x y) (F.fin 0)]
  · intro q v pad
    have h1 : ¬(q :: q :: v).length = 0 := by simp
    have h2 : ¬(q :: v).length = 0 := by simp
    simp only [calculate_limits_cpp, if_neg h1, if_neg h2, List.foldl_cons]
    rw [rowStep_same (F.fin 0) q]

/-- Witness for C8: swapping the two rows `(1,2)` and `(3,4)` leaves the
result unchanged. -/
theorem calculate_limits_order_independent_witness :
    calculate_limits_cpp [(F.fin (1:ℚ), F.fin 2), (F.fin 3, F.fin 4)] (F.fin 1)
      = calculate_limits_cpp [(F.fin 3, F.fin 4), (F.fin (1:ℚ), F.fin 2)] (F.fin 1) :=
  (calculate_limits_order_independent (α := ℚ)).1 [(F.fin 1, F.fin 2), (F.fin 3, F.fin 4)]
    [(F.fin 3, F.fin 4), (F.fin 1, F.fin 2)] (F.fin 1)
    (List.Perm.swap (F.fin 3, F.fin 4) (F.fin 1, F.fin 2) [])

/-- Claim C9: the three operations are deterministic pure functions — equal
inputs give equal outputs (the embedding is a function of its arguments
only; the source has no global or static state). -/
theorem operations_deterministic :
    (∀ (ops ops2 : Ops α) (a b a2 b2 : F α) (n n2 : ℤ),
        ops = ops2 → a = a2 → b = b2 → n = n2 →
        generate_spiral_cpp ops a b n = generate_spiral_cpp ops2 a2 b2 n2) ∧
    (∀ (v v2 : List (F α × F α)) (p p2 : F α), v = v2 → p = p2 →
        calculate_limits_cpp v p = calculate_limits_cpp v2 p2) ∧
    (∀ (l l2 : List Bool), l = l2 →
        count_bounded_cells_cpp l = count_bounded_cells_cpp l2) := by
  refine ⟨?_, ?_, ?_⟩
  · intro ops ops2 a b a2 b2 n n2 h1 h2 h3 h4
    rw [h1, h2, h3, h4]
  · intro v v2 p p2 h1 h2
    rw [h1, h2]
  · intro l l2 h
    rw [h]

/-- Witness for C9: repeated calls on identical concrete inputs agree. -/
theorem operations_deterministic_witness :
    generate_spiral_cpp qOps (F.fin (0:ℚ)) (F.fin 1) 2
        = generate_spiral_cpp qOps (F.fin 0) (F.fin 1) 2 ∧
    calculate_limits_cpp [((F.fin (1:ℚ)), F.fin 2)] (F.fin 1)
        = calculate_limits_cpp [((F.fin 1), F.fin 2)] (F.fin 1) ∧
    count_bounded_cells_cpp [false, true] = count_bounded_cells_cpp [false, true] :=
  ⟨(operations_deterministic (α := ℚ)).1 qOps qOps _ _ _ _ 2 2 rfl rfl rfl rfl,
   (operations_deterministic (α := ℚ)).2.1 _ _ _ _ rfl rfl,
   (operations_deterministic (α := ℚ)).2.2 _ _ rfl⟩

/-- Claim C10: for `num_points = 1` and any finite angles,
`generate_spiral_cpp` does not fail: the step division by zero gives
`±Inf` (or NaN when the angles are equal), `theta = angle_start + 0*step`
is NaN, and the single returned row is `(NaN, NaN)`. -/
theorem generate_spiral_single_point_nan (ops : Ops α) (a b : α) :
    (generate_spiral_cpp ops (F.fin a) (F.fin b) 1).rows = [(F.nan, F.nan)] := by
  have hr : List.range (Int.toNat 1) = [0] := rfl
  have h0 : ((1 - 1 : ℤ) : α) = 0 := by norm_num
  have hsub : F.sub (F.fin b) (F.fin a) = F.fin (b + -a) := rfl
  simp only [generate_spiral_cpp, hr, List.map_cons, List.map_nil,
    Nat.cast_zero, h0, hsub]
  rw [mul_zero_div_zero (b + -a)]
  simp [F.add, F.sqrt, F.cos, F.sin, F.mul]

end Claims
